import Mathlib

/-!
Shallow embedding of `metro/tools/run_metro_bodymesh_backbone.py` (training and
evaluation script for 3D human body mesh reconstruction with unsupervised
domain adaptation), together with theorems settling the specification claims.

Tensors are modelled as nested lists of rationals: a tensor of shape
`(B, J, C)` becomes `List (List (List ℚ))`.  External torch primitives that
compute transcendental functions (`binary_cross_entropy_with_logits`,
`sigmoid`, `sqrt`) are passed in as function parameters, since their
implementations live outside this repository.
-/

namespace Metro

/-- Mean of a list of rationals, as `torch.mean` over all elements
(`sum / count`; only applied to nonempty data in the script). -/
def tmean (xs : List ℚ) : ℚ := xs.sum / xs.length

/-- Boolean-mask indexing `t[flags == 1]`: keep the rows whose flag is 1. -/
def maskFilter {α : Type} (xs : List α) (flags : List ℚ) : List α :=
  (List.zip xs flags).filterMap (fun p => if p.2 = 1 then some p.1 else none)

/-- Last element of a channel vector (`t[..., -1]`), 0 when empty. -/
def lastD (ch : List ℚ) : ℚ := ch.getLast?.getD 0

/-- Componentwise midpoint of the joints at indices 2 and 3
(`(t[:, 2, :] + t[:, 3, :]) / 2`, the pelvis). -/
def pelvisOf (joints : List (List ℚ)) : List ℚ :=
  List.zipWith (fun a b => (a + b) / 2) (joints.getD 2 []) (joints.getD 3 [])

/-- Broadcast subtraction of a per-sample vector from every joint
(`t - pelvis[:, None, :]`). -/
def subPelvis (joints : List (List ℚ)) (pelvis : List ℚ) : List (List ℚ) :=
  joints.map (fun jt => List.zipWith (fun a b => a - b) jt pelvis)

/-- Elementwise `torch.nn.MSELoss(reduction='none')`. -/
def mseElem (a b : ℚ) : ℚ := (a - b) ^ 2

/-- Model of `torch.nn.L1Loss()` with its default mean reduction, on rank-3
tensors. -/
def l1Loss (pred gt : List (List (List ℚ))) : ℚ :=
  tmean ((List.zipWith (List.zipWith (List.zipWith (fun a b => |a - b|)))
    pred gt).flatten.flatten)

/-- Elementwise combination of two rank-2 tensors. -/
def zipWith2 (f : ℚ → ℚ → ℚ) (x y : List (List ℚ)) : List (List ℚ) :=
  List.zipWith (List.zipWith f) x y

/-- Source `loss_da` (lines 161-177).  `outputs` has first dimension `B`;
the assert `B % 2 == 0` is modelled by returning `none` when `B` is odd.
The targets tensor is 0 on the first `B//2` rows (source domain) and 1 on
the rest (target domain); `bce` is the external elementwise
`F.binary_cross_entropy_with_logits` and `sigmoid` the external
`Tensor.sigmoid`, both parameters of the embedding. -/
def loss_da (bce : ℚ → ℚ → ℚ) (sigmoid : ℚ → ℚ)
    (outputs : List (List ℚ)) (use_focal : Bool) : Option ℚ :=
  let B := outputs.length
  if B % 2 = 0 then
    let targets : List (List ℚ) :=
      outputs.enum.map (fun p => p.2.map (fun _ => if p.1 < B / 2 then 0 else 1))
    let loss := zipWith2 bce outputs targets
    let loss :=
      if use_focal then
        let prob := outputs.map (fun row => row.map sigmoid)
        let p_t := zipWith2 (fun pr t => pr * t + (1 - pr) * (1 - t)) prob targets
        zipWith2 (fun l w => l * (1 - w) ^ 2) loss p_t
      else loss
    some (tmean loss.flatten)
  else none

/-- The domain-adaptation target value for row `i` of a batch of size `B`:
0 for the labeled source half, 1 for the unlabeled target half. -/
def daTarget (B i : ℕ) : ℚ := if i < B / 2 then 0 else 1

/-- A filesystem side effect performed by `save_checkpoint`. -/
inductive FsOp where
  | mkdirOp (path : String)
  | writeFile (path : String)
  deriving DecidableEq, Repr

/-- Observable outcome of one `save_checkpoint` call: the returned
directory, the filesystem operations performed, the number of try-blocks
entered, and which log messages were emitted. -/
structure CheckpointResult where
  dir : String
  ops : List FsOp
  attempts : ℕ
  loggedSuccess : Bool
  loggedFailure : Bool
  deriving DecidableEq, Repr

/-- Model of `os.path.join` restricted to the relative second components
used here. -/
def pathJoin (a b : String) : String :=
  if a = "" then b else if a.endsWith "/" then a ++ b else a ++ "/" ++ b

/-- The `for i in range(num_trial): try ... break / except: pass` loop of
`save_checkpoint`: attempts are numbered from `i`; `attemptOk j` tells
whether attempt `j` completes without raising, `partialOps j` the writes a
raising attempt performed before its exception, and `successOps` the writes
of a completing attempt.  Returns the operations performed, the number of
attempts entered, and whether the loop exited through `break`. -/
def runTrials (attemptOk : ℕ → Bool) (partialOps : ℕ → List FsOp)
    (successOps : List FsOp) : ℕ → ℕ → List FsOp × ℕ × Bool
  | _, 0 => ([], 0, false)
  | i, n + 1 =>
    if attemptOk i then (successOps, 1, true)
    else
      let r := runTrials attemptOk partialOps successOps (i + 1) n
      (partialOps i ++ r.1, r.2.1 + 1, r.2.2)

/-- Source `save_checkpoint` (lines 48-66).  `isMain` abstracts the
distributed-communication call `is_main_process()`; the checkpoint
directory is `op.join(args.output_dir, 'checkpoint-{epoch}-{iteration}')`;
a non-main process returns it at once, the main process makes the
directory and retries the three-file serialize sequence, logging a failure
through the `for`-`else` only when no attempt broke out of the loop. -/
def save_checkpoint (isMain : Bool) (output_dir : String)
    (epoch iteration : ℕ) (attemptOk : ℕ → Bool)
    (partialOps : ℕ → List FsOp) (num_trial : ℕ := 10) : CheckpointResult :=
  let checkpoint_dir := pathJoin output_dir
    ("checkpoint-" ++ toString epoch ++ "-" ++ toString iteration)
  if !isMain then
    { dir := checkpoint_dir, ops := [], attempts := 0,
      loggedSuccess := false, loggedFailure := false }
  else
    let successOps := [FsOp.writeFile (pathJoin checkpoint_dir "model.bin"),
      FsOp.writeFile (pathJoin checkpoint_dir "state_dict.bin"),
      FsOp.writeFile (pathJoin checkpoint_dir "training_args.bin")]
    let r := runTrials attemptOk partialOps successOps 0 num_trial
    { dir := checkpoint_dir,
      ops := FsOp.mkdirOp checkpoint_dir :: r.1,
      attempts := r.2.1,
      loggedSuccess := r.2.2,
      loggedFailure := !r.2.2 }

/-- Elementwise application of a criterion to two rank-3 tensors
(`torch.nn.MSELoss(reduction='none')`-style loss). -/
def elemErr (criterion : ℚ → ℚ → ℚ) (pred gt : List (List (List ℚ))) :
    List (List (List ℚ)) :=
  List.zipWith (List.zipWith (List.zipWith criterion)) pred gt

/-- Broadcast multiplication of a `(B, J, 1)` confidence tensor against a
`(B, J, C)` loss tensor (`conf * loss`). -/
def confWeight (conf : List (List ℚ)) (err : List (List (List ℚ))) :
    List (List (List ℚ)) :=
  List.zipWith (fun cs rows =>
    List.zipWith (fun c chs => chs.map (fun e => c * e)) cs rows) conf err

/-- Translation of a sample's joints by its own pelvis midpoint. -/
def centerPelvis (joints : List (List ℚ)) : List (List ℚ) :=
  subPelvis joints (pelvisOf joints)

set_option linter.unusedVariables false in
/-- Source `keypoint_2d_loss` (lines 115-122): the confidence stored in the
last channel of the ground truth weights the elementwise criterion, and the
mean is taken over all elements.  `has_pose_2d` is accepted but unused, as
in the source. -/
def keypoint_2d_loss (criterion_keypoints : ℚ → ℚ → ℚ)
    (pred_keypoints_2d gt_keypoints_2d : List (List (List ℚ)))
    (has_pose_2d : List ℚ) : ℚ :=
  let conf := gt_keypoints_2d.map (fun joints => joints.map lastD)
  let gt_coords := gt_keypoints_2d.map (fun joints => joints.map List.dropLast)
  tmean ((confWeight conf
    (elemErr criterion_keypoints pred_keypoints_2d gt_coords)).flatten.flatten)

/-- Source `keypoint_3d_loss` (lines 124-140): split confidence from
coordinates, filter by `has_pose_3d == 1`, and if any sample remains,
center both tensors on the pelvis (midpoint of joints 2 and 3) and return
the mean confidence-weighted criterion; otherwise return a zero tensor. -/
def keypoint_3d_loss (criterion_keypoints : ℚ → ℚ → ℚ)
    (pred_keypoints_3d gt_keypoints_3d : List (List (List ℚ)))
    (has_pose_3d : List ℚ) : ℚ :=
  let conf := gt_keypoints_3d.map (fun joints => joints.map lastD)
  let gt3 := gt_keypoints_3d.map (fun joints => joints.map List.dropLast)
  let gt3 := maskFilter gt3 has_pose_3d
  let conf := maskFilter conf has_pose_3d
  let pred := maskFilter pred_keypoints_3d has_pose_3d
  if 0 < gt3.length then
    let gt_centered := gt3.map centerPelvis
    let pred_centered := pred.map centerPelvis
    tmean ((confWeight conf
      (elemErr criterion_keypoints pred_centered gt_centered)).flatten.flatten)
  else 0

/-- Source `vertices_loss` (lines 142-151): filter by `has_smpl == 1` and
apply the vertex criterion if any sample remains, else return zero. -/
def vertices_loss (criterion_vertices :
      List (List (List ℚ)) → List (List (List ℚ)) → ℚ)
    (pred_vertices gt_vertices : List (List (List ℚ)))
    (has_smpl : List ℚ) : ℚ :=
  let pred_vertices_with_shape := maskFilter pred_vertices has_smpl
  let gt_vertices_with_shape := maskFilter gt_vertices has_smpl
  if 0 < gt_vertices_with_shape.length then
    criterion_vertices pred_vertices_with_shape gt_vertices_with_shape
  else 0

/-- Source `mean_per_joint_position_error` (lines 89-103): filter by
`has_3d_joints == 1`, drop the last ground-truth channel, center both on the
pelvis, and return the per-sample mean over joints of the Euclidean
distance; `sqrt` is the external `torch.sqrt`. -/
def mean_per_joint_position_error (sqrt : ℚ → ℚ)
    (pred gt : List (List (List ℚ))) (has_3d_joints : List ℚ) : List ℚ :=
  let gt := maskFilter gt has_3d_joints
  let gt := gt.map (fun joints => joints.map List.dropLast)
  let pred := maskFilter pred has_3d_joints
  let gt := gt.map centerPelvis
  let pred := pred.map centerPelvis
  List.zipWith (fun pjs gjs =>
    tmean (List.zipWith (fun pj gj =>
      sqrt ((List.zipWith (fun a b => (a - b) ^ 2) pj gj).sum)) pjs gjs)) pred gt

/-- Rank-3 tensor shorthand. -/
abbrev Tensor3 := List (List (List ℚ))

/-- Rank-2 tensor shorthand. -/
abbrev Tensor2 := List (List ℚ)

/-- The hyperparameters and alignment flags `run` reads from `args` when
composing the total loss (lines 329-364 and `parse_args`). -/
structure TrainArgs where
  joints_loss_weight : ℚ
  vertices_loss_weight : ℚ
  joint_domain_loss_weight : ℚ
  vertex_domain_loss_weight : ℚ
  backbone_domain_loss_weight : ℚ
  vloss_w_full : ℚ
  vloss_w_sub : ℚ
  vloss_w_sub2 : ℚ
  joint_align : Bool
  vertex_align : Bool
  backbone_align : Bool

/-- The forward-pass outputs and prepared ground truths as they enter the
loss composition of one training iteration. -/
structure IterData where
  pred_3d_joints : Tensor3
  pred_vertices_sub2 : Tensor3
  pred_vertices_sub : Tensor3
  pred_vertices : Tensor3
  pred_3d_joints_from_smpl : Tensor3
  pred_2d_joints : Tensor3
  pred_2d_joints_from_smpl : Tensor3
  gt_3d_joints : Tensor3
  gt_2d_joints : Tensor3
  gt_vertices_sub2 : Tensor3
  gt_vertices_sub : Tensor3
  gt_vertices : Tensor3
  has_3d_joints : List ℚ
  has_2d_joints : List ℚ
  has_smpl : List ℚ
  joint_domain_pred : Tensor2
  vertex_domain_pred : Tensor2
  backbone_domain_pred : Tensor2

/-- The loss composition of one training iteration (lines 329-364), with
the criteria instantiated as `run` builds them (elementwise MSE for
keypoints, mean-reduced L1 for vertices) and `loss_da` called with its
default `use_focal=False`.  `none` models the assertion failure inside
`loss_da` on an odd-sized domain batch. -/
def iterationLoss (args : TrainArgs) (bce : ℚ → ℚ → ℚ) (sigmoid : ℚ → ℚ)
    (d : IterData) : Option ℚ :=
  let loss_3d_joints := keypoint_3d_loss mseElem d.pred_3d_joints
    d.gt_3d_joints d.has_3d_joints
  let loss_vertices := args.vloss_w_sub2 * vertices_loss l1Loss
      d.pred_vertices_sub2 d.gt_vertices_sub2 d.has_smpl
    + args.vloss_w_sub * vertices_loss l1Loss
      d.pred_vertices_sub d.gt_vertices_sub d.has_smpl
    + args.vloss_w_full * vertices_loss l1Loss
      d.pred_vertices d.gt_vertices d.has_smpl
  let loss_reg_3d_joints := keypoint_3d_loss mseElem
    d.pred_3d_joints_from_smpl d.gt_3d_joints d.has_3d_joints
  let loss_2d_joints := keypoint_2d_loss mseElem d.pred_2d_joints
      d.gt_2d_joints d.has_2d_joints
    + keypoint_2d_loss mseElem d.pred_2d_joints_from_smpl
      d.gt_2d_joints d.has_2d_joints
  let loss_3d_joints := loss_3d_joints + loss_reg_3d_joints
  do
    let loss_joint_domain ←
      if args.joint_align then loss_da bce sigmoid d.joint_domain_pred false
      else some 0
    let loss_vertex_domain ←
      if args.vertex_align then loss_da bce sigmoid d.vertex_domain_pred false
      else some 0
    let loss_backbone_domain ←
      if args.backbone_align then
        loss_da bce sigmoid d.backbone_domain_pred false
      else some 0
    some (args.joints_loss_weight * loss_3d_joints
      + args.vertices_loss_weight * loss_vertices
      + args.vertices_loss_weight * loss_2d_joints
      + args.joint_domain_loss_weight * loss_joint_domain
      + args.vertex_domain_loss_weight * loss_vertex_domain
      + args.backbone_domain_loss_weight * loss_backbone_domain)

/-- The observable phases of one training-loop iteration. -/
inductive TrainEvent where
  | forward
  | lossCompose
  | meterUpdate
  | zeroGrad
  | backward
  | optimizerStep
  | periodicLog
  | validate
  | checkpoint
  deriving DecidableEq, Repr

/-- One iteration of the `run` training loop (lines 297-461) as the list of
phases it performs, in program order: forward pass, loss composition,
meter updates, `optimizer.zero_grad()`, `loss.backward()`,
`optimizer.step()`, then the conditional logging, validation and
checkpointing tail. -/
def iterationTrace (logStep validateStep saveCkpt : Bool) :
    List TrainEvent :=
  [TrainEvent.forward, TrainEvent.lossCompose, TrainEvent.meterUpdate,
    TrainEvent.zeroGrad, TrainEvent.backward, TrainEvent.optimizerStep]
  ++ (if logStep then [TrainEvent.periodicLog] else [])
  ++ (if validateStep then
        TrainEvent.validate ::
          (if saveCkpt then [TrainEvent.checkpoint] else [])
      else [])

/-- The three metrics `run_validate` reports for one validation pass. -/
structure ValMetrics where
  mPVE : ℚ
  mPJPE : ℚ
  PAmPJPE : ℚ

/-- Modelled from the spec: `EvalMetricsLogger`
(`metro/utils/metric_logger.py`, a repository file not under `src/`) holds
the best validation metrics logged so far together with the epoch they
were reached at. -/
structure EvalMetricsLogger where
  mPVE : ℚ
  mPJPE : ℚ
  PAmPJPE : ℚ
  epoch : ℕ
  deriving DecidableEq

/-- Modelled from the spec: `EvalMetricsLogger.update(mPVE, mPJPE,
PAmPJPE, epoch)` stores the given metric values and epoch as the new best
log. -/
def EvalMetricsLogger.update (v : ValMetrics) (epoch : ℕ) :
    EvalMetricsLogger :=
  { mPVE := v.mPVE, mPJPE := v.mPJPE, PAmPJPE := v.PAmPJPE, epoch := epoch }

/-- Validation and checkpoint events of the training loop, tagged with the
iteration count at which they happen. -/
inductive LoopEvent where
  | validation (iteration : ℕ)
  | checkpointSave (iteration : ℕ)
  | bestUpdate (iteration : ℕ)
  deriving DecidableEq, Repr

/-- Lines 431-461 of `run`: the validation / checkpoint tail executed after
the optimizer step of iteration `iteration` (1-based).  `val` is the
oracle giving the metrics `run_validate` would report at that iteration,
`log` the current best-metrics log. -/
def iterTail (iters_per_epoch : ℕ) (val : ℕ → ValMetrics) (iteration : ℕ)
    (log : EvalMetricsLogger) : List LoopEvent × EvalMetricsLogger :=
  if iteration % iters_per_epoch = 0 then
    let v := val iteration
    if v.PAmPJPE < log.PAmPJPE ∨ v.mPVE < log.mPVE ∨ v.mPJPE < log.mPJPE then
      ([LoopEvent.validation iteration, LoopEvent.checkpointSave iteration,
          LoopEvent.bestUpdate iteration],
        EvalMetricsLogger.update v (iteration / iters_per_epoch))
    else if iteration % (iters_per_epoch * 5) = 0 then
      ([LoopEvent.validation iteration, LoopEvent.checkpointSave iteration],
        log)
    else ([LoopEvent.validation iteration], log)
  else ([], log)

/-- Sequential execution of `iterTail` over a list of iteration counts,
threading the best-metrics log and collecting events. -/
def loopTail (iters_per_epoch : ℕ) (val : ℕ → ValMetrics) :
    List ℕ → EvalMetricsLogger → List LoopEvent × EvalMetricsLogger
  | [], log => ([], log)
  | i :: rest, log =>
    let r := iterTail iters_per_epoch val i log
    let r2 := loopTail iters_per_epoch val rest r.2
    (r.1 ++ r2.1, r2.2)

/-- The validation/checkpoint behaviour of the whole `run` training loop:
the per-iteration tails for iterations `1 .. maxIter` followed by the
unconditional `save_checkpoint` after the loop (line 468), which fires at
the final value of the loop variable. -/
def runLoopEvents (maxIter iters_per_epoch : ℕ) (val : ℕ → ValMetrics)
    (init : EvalMetricsLogger) : List LoopEvent :=
  (loopTail iters_per_epoch val
      ((List.range maxIter).map (fun k => k + 1)) init).1
    ++ [LoopEvent.checkpointSave maxIter]

/-- Line 183 of `run`: `iters_per_epoch = max_iter // args.num_train_epochs`. -/
def itersPerEpoch (max_iter num_train_epochs : ℕ) : ℕ :=
  max_iter / num_train_epochs

/-- Line 240 of `run`: `epoch = iteration // iters_per_epoch`, with
Python's `ZeroDivisionError` modelled as `none`. -/
def epochOf (iteration iters_per_epoch : ℕ) : Option ℕ :=
  if iters_per_epoch = 0 then none else some (iteration / iters_per_epoch)

lemma zipWith_map_const (f : ℚ → ℚ → ℚ) (c : ℚ) (r : List ℚ) :
    List.zipWith f r (r.map fun _ => c) = r.map fun x => f x c := by
  induction r with
  | nil => rfl
  | cons a t ih => simp only [List.map_cons, List.zipWith_cons_cons, ih]

lemma zipWith_enumFrom_map (f : ℚ → ℚ → ℚ) (g : ℕ → ℚ) :
    ∀ (l : List (List ℚ)) (k : ℕ),
      List.zipWith (List.zipWith f) l
          (((l.enumFrom k)).map (fun p => p.2.map (fun _ => g p.1)))
        = ((l.enumFrom k)).map (fun p => p.2.map (fun x => f x (g p.1)))
  | [], _ => rfl
  | r :: rs, k => by
    simp only [List.enumFrom, List.map_cons, List.zipWith_cons_cons]
    rw [zipWith_map_const, zipWith_enumFrom_map f g rs (k + 1)]

lemma maskFilter_map {α β : Type} (f : α → β) :
    ∀ (xs : List α) (flags : List ℚ),
      maskFilter (xs.map f) flags = (maskFilter xs flags).map f
  | [], _ => rfl
  | _ :: _, [] => rfl
  | x :: xs, c :: flags => by
    simp only [maskFilter, List.map_cons, List.zip_cons_cons, List.filterMap_cons]
    by_cases h : c = 1
    · simp only [h, if_true, if_pos, List.map_cons]
      have := maskFilter_map f xs flags
      simp only [maskFilter] at this
      rw [this]
    · simp only [h, if_false, if_neg h]
      have := maskFilter_map f xs flags
      simp only [maskFilter] at this
      rw [this]

/-- C1: for a logits tensor with even first dimension and `use_focal = false`,
`loss_da` is the mean over all elements of the elementwise binary
cross-entropy-with-logits against the half-0/half-1 target tensor, with no
focal reweighting applied. -/
theorem loss_da_even_no_focal (bce : ℚ → ℚ → ℚ) (sigmoid : ℚ → ℚ)
    (outputs : List (List ℚ)) (h : outputs.length % 2 = 0) :
    loss_da bce sigmoid outputs false =
      some (tmean ((outputs.enum.map (fun p =>
        p.2.map (fun x => bce x (daTarget outputs.length p.1)))).flatten)) := by
  unfold loss_da zipWith2 daTarget
  simp only [h, if_true, Bool.false_eq_true, if_false, List.enum]
  rw [zipWith_enumFrom_map bce (fun i => if i < outputs.length / 2 then 0 else 1)]

/-- C1 witness at a concrete batch of size 2. -/
theorem loss_da_even_no_focal_witness :
    ([[ (3 : ℚ) ], [ 5 ]] : List (List ℚ)).length % 2 = 0 ∧
    loss_da (fun a b => a * b + 1) (fun x => x) [[3], [5]] false =
      some (tmean ((([[ (3 : ℚ)], [5]] : List (List ℚ)).enum.map (fun p =>
        p.2.map (fun x => (fun a b => a * b + 1) x (daTarget 2 p.1)))).flatten)) :=
  ⟨by decide, loss_da_even_no_focal (fun a b => a * b + 1) (fun x => x) [[3], [5]] (by decide)⟩

/-- C8: the result of `keypoint_2d_loss` does not depend on its
`has_pose_2d` argument; the loss is weighted only by the per-keypoint
confidence in the last ground-truth channel and no sample filtering
occurs. -/
theorem keypoint_2d_loss_ignores_has_pose_2d (criterion : ℚ → ℚ → ℚ)
    (pred gt : List (List (List ℚ))) (h1 h2 : List ℚ) :
    keypoint_2d_loss criterion pred gt h1 =
      keypoint_2d_loss criterion pred gt h2 := rfl

/-- C5: `keypoint_3d_loss` returns zero when no sample survives the
`has_pose_3d == 1` filter and otherwise the mean confidence-weighted MSE of
the pelvis-centered tensors; `vertices_loss` returns zero when no sample
survives the `has_smpl == 1` filter and otherwise the L1 loss over the
remaining samples. -/
theorem keypoint_3d_and_vertices_loss_cases
    (pred gt pv gv : List (List (List ℚ))) (has_pose_3d has_smpl : List ℚ) :
    (keypoint_3d_loss mseElem pred gt has_pose_3d =
       if maskFilter gt has_pose_3d = [] then 0
       else
         tmean ((confWeight
           ((maskFilter gt has_pose_3d).map (fun js => js.map lastD))
           (elemErr mseElem
             ((maskFilter pred has_pose_3d).map centerPelvis)
             (((maskFilter gt has_pose_3d).map
                 (fun js => js.map List.dropLast)).map
               centerPelvis))).flatten.flatten))
    ∧ (vertices_loss l1Loss pv gv has_smpl =
       if maskFilter gv has_smpl = [] then 0
       else l1Loss (maskFilter pv has_smpl) (maskFilter gv has_smpl)) := by
  constructor
  · show (if 0 < (maskFilter (gt.map (fun js => js.map List.dropLast))
        has_pose_3d).length then _ else 0) = _
    rw [maskFilter_map, maskFilter_map]
    rcases eq_or_ne (maskFilter gt has_pose_3d) [] with h | h
    · simp [h]
    · rw [if_neg h, if_pos]
      simp [List.length_pos, h]
  · show (if 0 < (maskFilter gv has_smpl).length then _ else 0) = _
    rcases eq_or_ne (maskFilter gv has_smpl) [] with h | h
    · simp [h]
    · rw [if_neg h, if_pos]
      simp [List.length_pos, h]

/-- C6: `mean_per_joint_position_error` keeps the samples with
`has_3d_joints == 1`, drops the last ground-truth coordinate, centers both
tensors on the midpoint of joints 2 and 3, and returns per remaining sample
the Euclidean distance between prediction and ground truth averaged over the
joints. -/
theorem mean_per_joint_position_error_spec (sqrt : ℚ → ℚ)
    (pred gt : List (List (List ℚ))) (has_3d_joints : List ℚ) :
    mean_per_joint_position_error sqrt pred gt has_3d_joints =
      List.zipWith (fun pjs gjs =>
        tmean (List.zipWith (fun pj gj =>
          sqrt ((List.zipWith (fun a b => (a - b) ^ 2) pj gj).sum)) pjs gjs))
        ((maskFilter pred has_3d_joints).map centerPelvis)
        (((maskFilter gt has_3d_joints).map
            (fun js => js.map List.dropLast)).map centerPelvis) := rfl

lemma runTrials_attempts_le (ok : ℕ → Bool) (po : ℕ → List FsOp)
    (so : List FsOp) : ∀ (n i : ℕ), (runTrials ok po so i n).2.1 ≤ n
  | 0, _ => Nat.le_refl 0
  | n + 1, i => by
    simp only [runTrials]
    by_cases h : ok i = true
    · simp [h]
    · simp only [h, if_false]
      exact Nat.succ_le_succ (runTrials_attempts_le ok po so n (i + 1))

lemma runTrials_not_success_iff (ok : ℕ → Bool) (po : ℕ → List FsOp)
    (so : List FsOp) : ∀ (n i : ℕ),
      (runTrials ok po so i n).2.2 = false ↔ ∀ j, j < n → ok (i + j) = false
  | 0, i => by simp [runTrials]
  | n + 1, i => by
    by_cases h : ok i = true
    · simp only [runTrials, if_pos h]
      constructor
      · intro hfalse; cases hfalse
      · intro hall
        have := hall 0 (Nat.succ_pos n)
        rw [Nat.add_zero] at this
        rw [this] at h
        cases h
    · simp only [runTrials, if_neg h]
      show (runTrials ok po so (i + 1) n).2.2 = false ↔ _
      rw [runTrials_not_success_iff ok po so n (i + 1)]
      constructor
      · intro hall j hj
        match j, hj with
        | 0, _ => simpa using Bool.eq_false_iff.mpr h
        | j + 1, hj =>
          have hs := hall j (Nat.lt_of_succ_lt_succ hj)
          have e : i + 1 + j = i + (j + 1) := by omega
          rw [e] at hs
          exact hs
      · intro hall j hj
        have hs := hall (j + 1) (Nat.succ_lt_succ hj)
        have e : i + 1 + j = i + (j + 1) := by omega
        rw [e]
        exact hs

lemma runTrials_first_success (ok : ℕ → Bool) (po : ℕ → List FsOp)
    (so : List FsOp) : ∀ (n i j : ℕ), j < n → ok (i + j) = true →
      (∀ k, k < j → ok (i + k) = false) →
      (runTrials ok po so i n).2.1 = j + 1
  | 0, _, j, hj, _, _ => absurd hj (Nat.not_lt_zero j)
  | n + 1, i, j, hj, hok, hmin => by
    by_cases h : ok i = true
    · simp only [runTrials, if_pos h]
      rcases Nat.eq_zero_or_pos j with h0 | hpos

      · rw [h0]
      · exact absurd h (by simpa using hmin 0 hpos)
    · simp only [runTrials, if_neg h]
      show (runTrials ok po so (i + 1) n).2.1 + 1 = _
      match j with
      | 0 => exact absurd hok (by simpa using h)
      | j + 1 =>
        have hrec := runTrials_first_success ok po so n (i + 1) j
          (Nat.lt_of_succ_lt_succ hj)
          (by
            have e : i + 1 + j = i + (j + 1) := by omega
            rw [e]
            exact hok)
          (fun k hk => by
            have hs := hmin (k + 1) (Nat.succ_lt_succ hk)
            have e : i + 1 + k = i + (k + 1) := by omega
            rw [e]
            exact hs)
        rw [hrec]

/-- C2: `save_checkpoint` enters the serialize sequence at most `num_trial`
times, stops after the first attempt that completes (the attempt count is
one more than the index of the first completing attempt), logs the failure
message exactly when it is the main process and every attempt raised, and
always returns `output_dir/checkpoint-{epoch}-{iteration}`. -/
theorem save_checkpoint_retry_spec (isMain : Bool) (od : String)
    (epoch iteration : ℕ) (ok : ℕ → Bool) (po : ℕ → List FsOp) (n : ℕ) :
    (save_checkpoint isMain od epoch iteration ok po n).dir =
        pathJoin od ("checkpoint-" ++ toString epoch ++ "-" ++
          toString iteration)
    ∧ (save_checkpoint isMain od epoch iteration ok po n).attempts ≤ n
    ∧ ((save_checkpoint isMain od epoch iteration ok po n).loggedFailure =
          true ↔ isMain = true ∧ ∀ j, j < n → ok j = false)
    ∧ (∀ j, isMain = true → j < n → ok j = true →
        (∀ k, k < j → ok k = false) →
        (save_checkpoint isMain od epoch iteration ok po n).attempts =
          j + 1) := by
  cases isMain with
  | false =>
    refine ⟨rfl, Nat.zero_le n, by simp [save_checkpoint], ?_⟩
    intro j hmain
    cases hmain
  | true =>
    refine ⟨rfl, ?_, ?_, ?_⟩
    · exact runTrials_attempts_le ok po _ n 0
    · show (!(runTrials ok po _ 0 n).2.2) = true ↔ _
      rw [Bool.not_eq_true']
      rw [runTrials_not_success_iff ok po _ n 0]
      simp
    · intro j _ hj hok hmin
      exact runTrials_first_success ok po _ n 0 j hj (by simpa using hok)
        (fun k hk => by simpa using hmin k hk)

/-- C2 witness: with the third attempt the first to succeed, exactly three
attempts are entered. -/
theorem save_checkpoint_retry_spec_witness :
    (save_checkpoint true "output" 1 500 (fun j => j == 2)
      (fun _ => []) 10).attempts = 2 + 1 :=
  (save_checkpoint_retry_spec true "output" 1 500 (fun j => j == 2)
    (fun _ => []) 10).2.2.2 2 rfl (by decide) (by decide)
    (fun k hk => by interval_cases k <;> rfl)

/-- C10: a non-main process gets the checkpoint directory path back from
`save_checkpoint` without any filesystem operation being performed. -/
theorem save_checkpoint_non_main_no_effects (od : String)
    (epoch iteration : ℕ) (ok : ℕ → Bool) (po : ℕ → List FsOp) (n : ℕ) :
    (save_checkpoint false od epoch iteration ok po n).ops = []
    ∧ (save_checkpoint false od epoch iteration ok po n).dir =
        pathJoin od ("checkpoint-" ++ toString epoch ++ "-" ++
          toString iteration) :=
  ⟨rfl, rfl⟩

/-- C3: the total loss of a training iteration is the weighted sum
`joints_loss_weight * (transformer joint loss + mesh-regressed joint loss)
+ vertices_loss_weight * (three-level vertex loss) + vertices_loss_weight *
(2D joint loss) + the three domain terms`, where each domain term is the
`loss_da` value when its align flag is set and 0 otherwise. -/
theorem iteration_total_loss (args : TrainArgs) (bce : ℚ → ℚ → ℚ)
    (sigmoid : ℚ → ℚ) (d : IterData) (dj dv db : ℚ)
    (hdj : loss_da bce sigmoid d.joint_domain_pred false = some dj)
    (hdv : loss_da bce sigmoid d.vertex_domain_pred false = some dv)
    (hdb : loss_da bce sigmoid d.backbone_domain_pred false = some db) :
    iterationLoss args bce sigmoid d = some
      (args.joints_loss_weight *
          (keypoint_3d_loss mseElem d.pred_3d_joints d.gt_3d_joints
              d.has_3d_joints
            + keypoint_3d_loss mseElem d.pred_3d_joints_from_smpl
              d.gt_3d_joints d.has_3d_joints)
        + args.vertices_loss_weight *
          (args.vloss_w_sub2 * vertices_loss l1Loss d.pred_vertices_sub2
              d.gt_vertices_sub2 d.has_smpl
            + args.vloss_w_sub * vertices_loss l1Loss d.pred_vertices_sub
              d.gt_vertices_sub d.has_smpl
            + args.vloss_w_full * vertices_loss l1Loss d.pred_vertices
              d.gt_vertices d.has_smpl)
        + args.vertices_loss_weight *
          (keypoint_2d_loss mseElem d.pred_2d_joints d.gt_2d_joints
              d.has_2d_joints
            + keypoint_2d_loss mseElem d.pred_2d_joints_from_smpl
              d.gt_2d_joints d.has_2d_joints)
        + args.joint_domain_loss_weight *
            (if args.joint_align then dj else 0)
        + args.vertex_domain_loss_weight *
            (if args.vertex_align then dv else 0)
        + args.backbone_domain_loss_weight *
            (if args.backbone_align then db else 0)) := by
  unfold iterationLoss
  cases hja : args.joint_align <;> cases hva : args.vertex_align <;>
    cases hba : args.backbone_align <;>
      simp [hdj, hdv, hdb]

/-- C3 witness at a concrete iteration with all align flags set and batch-2
domain predictions. -/
theorem iteration_total_loss_witness :
    iterationLoss
      ⟨1000, 100, 1, 1, 1, 1/3, 1/3, 1/3, true, true, true⟩
      (fun a b => a + b) (fun x => x)
      ⟨[], [], [], [], [], [], [], [], [], [], [], [], [], [], [],
        [[1], [2]], [[1], [2]], [[1], [2]]⟩ = some
      ((1000 : ℚ) *
          (keypoint_3d_loss mseElem [] [] []
            + keypoint_3d_loss mseElem [] [] [])
        + 100 *
          ((1/3) * vertices_loss l1Loss [] [] []
            + (1/3) * vertices_loss l1Loss [] [] []
            + (1/3) * vertices_loss l1Loss [] [] [])
        + 100 *
          (keypoint_2d_loss mseElem [] [] []
            + keypoint_2d_loss mseElem [] [] [])
        + 1 * (if true then (2 : ℚ) else 0)
        + 1 * (if true then (2 : ℚ) else 0)
        + 1 * (if true then (2 : ℚ) else 0)) :=
  iteration_total_loss
    ⟨1000, 100, 1, 1, 1, 1/3, 1/3, 1/3, true, true, true⟩
    (fun a b => a + b) (fun x => x)
    ⟨[], [], [], [], [], [], [], [], [], [], [], [], [], [], [],
      [[1], [2]], [[1], [2]], [[1], [2]]⟩ 2 2 2
    (by norm_num [loss_da, zipWith2, tmean, List.enum, List.enumFrom])
    (by norm_num [loss_da, zipWith2, tmean, List.enum, List.enumFrom])
    (by norm_num [loss_da, zipWith2, tmean, List.enum, List.enumFrom])

/-- C4: in every training iteration the forward pass precedes the loss
composition, which precedes `optimizer.zero_grad()`, `loss.backward()` and
`optimizer.step()` in that order, and the optimizer steps at most once per
iteration. -/
theorem iteration_phase_order (logStep validateStep saveCkpt : Bool) :
    (iterationTrace logStep validateStep saveCkpt).indexOf
        TrainEvent.forward <
      (iterationTrace logStep validateStep saveCkpt).indexOf
        TrainEvent.lossCompose
    ∧ (iterationTrace logStep validateStep saveCkpt).indexOf
        TrainEvent.lossCompose <
      (iterationTrace logStep validateStep saveCkpt).indexOf
        TrainEvent.zeroGrad
    ∧ (iterationTrace logStep validateStep saveCkpt).indexOf
        TrainEvent.zeroGrad <
      (iterationTrace logStep validateStep saveCkpt).indexOf
        TrainEvent.backward
    ∧ (iterationTrace logStep validateStep saveCkpt).indexOf
        TrainEvent.backward <
      (iterationTrace logStep validateStep saveCkpt).indexOf
        TrainEvent.optimizerStep
    ∧ (iterationTrace logStep validateStep saveCkpt).count
        TrainEvent.optimizerStep ≤ 1 := by
  cases logStep <;> cases validateStep <;> cases saveCkpt <;> decide

lemma validation_mem_iterTail (ipe : ℕ) (val : ℕ → ValMetrics) (i j : ℕ)
    (log : EvalMetricsLogger) :
    LoopEvent.validation i ∈ (iterTail ipe val j log).1 ↔
      i = j ∧ j % ipe = 0 := by
  unfold iterTail
  by_cases h1 : j % ipe = 0
  · rw [if_pos h1]
    by_cases h2 : (val j).PAmPJPE < log.PAmPJPE ∨ (val j).mPVE < log.mPVE ∨
        (val j).mPJPE < log.mPJPE
    · rw [if_pos h2]
      simp [h1]
    · rw [if_neg h2]
      by_cases h3 : j % (ipe * 5) = 0
      · rw [if_pos h3]
        simp [h1]
      · rw [if_neg h3]
        simp [h1]
  · rw [if_neg h1]
    simp [h1]

lemma validation_mem_loopTail (ipe : ℕ) (val : ℕ → ValMetrics) (i : ℕ) :
    ∀ (l : List ℕ) (log : EvalMetricsLogger),
      LoopEvent.validation i ∈ (loopTail ipe val l log).1 ↔
        i ∈ l ∧ i % ipe = 0
  | [], log => by simp [loopTail]
  | j :: rest, log => by
    simp only [loopTail, List.mem_append]
    rw [validation_mem_iterTail,
      validation_mem_loopTail ipe val i rest]
    constructor
    · rintro (⟨rfl, hm⟩ | ⟨hmem, hm⟩)
      · exact ⟨List.mem_cons_self _ _, hm⟩
      · exact ⟨List.mem_cons_of_mem _ hmem, hm⟩
    · rintro ⟨hmem, hm⟩
      rcases List.mem_cons.mp hmem with rfl | hmem
      · exact Or.inl ⟨rfl, hm⟩
      · exact Or.inr ⟨hmem, hm⟩

/-- C7: during training, validation happens exactly at the iterations in
`1 .. maxIter` divisible by `iters_per_epoch`; at a validation iteration a
checkpoint is saved and the best-metrics log updated when some metric
strictly improves on the best so far, otherwise a checkpoint is saved only
when the iteration is a multiple of `5 * iters_per_epoch` and the log is
unchanged; and one unconditional checkpoint closes the loop. -/
theorem validation_checkpoint_schedule (maxIter ipe : ℕ)
    (val : ℕ → ValMetrics) (init : EvalMetricsLogger)
    (_hipe : 0 < ipe) (_hmax : 1 ≤ maxIter) :
    (∀ i, LoopEvent.validation i ∈ runLoopEvents maxIter ipe val init ↔
        1 ≤ i ∧ i ≤ maxIter ∧ ipe ∣ i)
    ∧ (∀ i log, ipe ∣ i →
        (((val i).PAmPJPE < log.PAmPJPE ∨ (val i).mPVE < log.mPVE ∨
            (val i).mPJPE < log.mPJPE) →
          iterTail ipe val i log =
            ([LoopEvent.validation i, LoopEvent.checkpointSave i,
                LoopEvent.bestUpdate i],
              EvalMetricsLogger.update (val i) (i / ipe)))
        ∧ (¬((val i).PAmPJPE < log.PAmPJPE ∨ (val i).mPVE < log.mPVE ∨
              (val i).mPJPE < log.mPJPE) → 5 * ipe ∣ i →
            iterTail ipe val i log =
              ([LoopEvent.validation i, LoopEvent.checkpointSave i], log))
        ∧ (¬((val i).PAmPJPE < log.PAmPJPE ∨ (val i).mPVE < log.mPVE ∨
              (val i).mPJPE < log.mPJPE) → ¬(5 * ipe ∣ i) →
            iterTail ipe val i log = ([LoopEvent.validation i], log)))
    ∧ (runLoopEvents maxIter ipe val init).getLast? =
        some (LoopEvent.checkpointSave maxIter) := by
  refine ⟨?_, ?_, ?_⟩
  · intro i
    unfold runLoopEvents
    rw [List.mem_append, validation_mem_loopTail]
    simp only [List.mem_singleton, List.mem_map, List.mem_range]
    rw [Nat.dvd_iff_mod_eq_zero]
    constructor
    · rintro (⟨⟨k, hk, rfl⟩, hm⟩ | habs)
      · exact ⟨Nat.succ_le_succ (Nat.zero_le k), Nat.succ_le_of_lt hk, hm⟩
      · cases habs
    · rintro ⟨h1, h2, hm⟩
      exact Or.inl ⟨⟨i - 1, by omega, by omega⟩, hm⟩
  · intro i log hdvd
    have hmod : i % ipe = 0 := Nat.dvd_iff_mod_eq_zero.mp hdvd
    refine ⟨?_, ?_, ?_⟩
    · intro himp
      unfold iterTail
      rw [if_pos hmod, if_pos himp]
    · intro himp h5
      have h5' : i % (ipe * 5) = 0 := by
        rw [← Nat.dvd_iff_mod_eq_zero, Nat.mul_comm]
        exact h5
      unfold iterTail
      rw [if_pos hmod, if_neg himp, if_pos h5']
    · intro himp h5
      have h5' : ¬ i % (ipe * 5) = 0 := by
        rw [← Nat.dvd_iff_mod_eq_zero, Nat.mul_comm]
        exact h5
      unfold iterTail
      rw [if_pos hmod, if_neg himp, if_neg h5']
  · exact List.getLast?_concat _

/-- C7 witness: two iterations with one iteration per epoch and a
non-improving validation oracle still end with the unconditional
checkpoint. -/
theorem validation_checkpoint_schedule_witness :
    (runLoopEvents 2 1 (fun _ => ⟨1, 1, 1⟩) ⟨0, 0, 0, 0⟩).getLast? =
      some (LoopEvent.checkpointSave 2) :=
  (validation_checkpoint_schedule 2 1 (fun _ => ⟨1, 1, 1⟩) ⟨0, 0, 0, 0⟩
    (by decide) (by decide)).2.2

/-- C9: with a positive epoch count, `iters_per_epoch ≥ 1` holds exactly
when the dataloader length is at least `num_train_epochs`; when the
quotient is 0 the first iteration's `iteration // iters_per_epoch` raises
a division-by-zero, and when it is at least 1 that error branch is
unreachable at every iteration. -/
theorem run_epoch_division_guard (max_iter num_train_epochs : ℕ)
    (h : 0 < num_train_epochs) :
    (1 ≤ itersPerEpoch max_iter num_train_epochs ↔
        num_train_epochs ≤ max_iter)
    ∧ (itersPerEpoch max_iter num_train_epochs = 0 →
        epochOf 1 (itersPerEpoch max_iter num_train_epochs) = none)
    ∧ (1 ≤ itersPerEpoch max_iter num_train_epochs →
        ∀ iteration, epochOf iteration (itersPerEpoch max_iter num_train_epochs) =
          some (iteration / itersPerEpoch max_iter num_train_epochs)) := by
  refine ⟨Nat.one_le_div_iff h, ?_, ?_⟩
  · intro h0
    rw [epochOf, if_pos h0]
  · intro h1 iteration
    rw [epochOf, if_neg (by omega)]

/-- C9 witness: ten batches and two epochs give five iterations per epoch,
so the epoch computation never divides by zero. -/
theorem run_epoch_division_guard_witness :
    1 ≤ itersPerEpoch 10 2 ↔ 2 ≤ 10 :=
  (run_epoch_division_guard 10 2 (by decide)).1

end Metro
